import Mathlib

/-!
# Verification of the karana expression engine and chart controllers

Shallow embedding of the core of the `karana` library:

* the symbolic expression tree and its placeholder serialization
  (`src/karana/_expression.py`),
* the client-side expression runtime — tokenizer, shunting-yard parser and
  RPN evaluator — and the chart-controller state logic embedded in the
  generated page (`src/karana/_line_graph.py`),
* wide-table → dataset conversion and year normalization
  (`src/karana/_line_graph.py`),
* the scatter controller's intersection computations
  (`src/karana/_scatter_plot.py`).

Modelling conventions:

* Machine floating-point numbers (Python floats / JS numbers) are idealized
  as exact rationals `ℚ`.  None of the properties proved here concern
  rounding behaviour.
* Missing values (`None` / `null` / `undefined`) are `Option.none`.
* Fallible code returns `Except String`; JS exceptions caught by a
  surrounding `try`/`catch` are modelled by the state the handler leaves
  behind, as noted at each definition.
* JS value stacks (arrays used with `push`/`pop`) are lists with the top at
  the head.
-/

namespace Karana

/-- Decidable equality for `Except`, used to settle concrete runtime
computations by `decide`. -/
instance {ε α : Type} [DecidableEq ε] [DecidableEq α] : DecidableEq (Except ε α) := by
  intro a b
  cases a <;> cases b
  case error.error e₁ e₂ =>
    exact if h : e₁ = e₂ then .isTrue (by rw [h]) else .isFalse (by simp [h])
  case ok.ok v₁ v₂ =>
    exact if h : v₁ = v₂ then .isTrue (by rw [h]) else .isFalse (by simp [h])
  all_goals exact .isFalse (by simp)

/-! ## Decimal rendering of integers (Python `str(int(...))`) -/

/-- The ASCII character for a decimal digit `d < 10`. -/
def digitChar (d : Nat) : Char := Char.ofNat (48 + d)

/-- Decimal digit characters of `n`, most significant first.  The first
argument is fuel (`n` itself is always enough); structural recursion on the
fuel keeps the definition kernel-reducible. -/
def natDigitsAux : Nat → Nat → List Char
  | 0, _ => []
  | fuel + 1, n =>
    if n = 0 then [] else natDigitsAux fuel (n / 10) ++ [digitChar (n % 10)]

/-- Decimal rendering of a natural number, as Python's `str`. -/
def natToDec (n : Nat) : String :=
  if n = 0 then "0" else String.mk (natDigitsAux n n)

/-- Decimal rendering of an integer, as Python's `str(int(...))`. -/
def intToDec (i : Int) : String :=
  if i < 0 then "-" ++ natToDec i.natAbs else natToDec i.natAbs

/-! ## Character classes and numeric token parsing -/

/-- ASCII decimal digit test. -/
def isDigitCh (c : Char) : Bool := decide ('0' ≤ c ∧ c ≤ '9')

/-- Whitespace skipped by the runtime tokenizer (exactly space, tab and
newline, as in the JS source). -/
def isSpaceCh (c : Char) : Bool := decide (c = ' ' ∨ c = '\t' ∨ c = '\n')

/-- Single-character operator/parenthesis tokens (`"+-*/()".includes(ch)`). -/
def isOpCh (c : Char) : Bool := decide (c ∈ ['+', '-', '*', '/', '(', ')'])

/-- Characters accumulated into a numeric token (digits and `.`). -/
def isNumCh (c : Char) : Bool := isDigitCh c || decide (c = '.')

/-- Numeric value of a digit character. -/
def digitVal (c : Char) : Nat := c.toNat - 48

/-- Value of a list of decimal digit characters. -/
def digitsVal (cs : List Char) : Nat :=
  cs.foldl (fun a c => 10 * a + digitVal c) 0

/-- `value.includes(".")` on a token. -/
def hasDot (s : String) : Bool := decide ('.' ∈ s.data)

/-- Numeric value of an unsigned decimal token: digits, optionally one `.`,
at least one digit overall; `none` models `NaN`.  This covers exactly the
token shapes the tokenizer can emit (runs of digits and dots). -/
def numParse (cs : List Char) : Option ℚ :=
  let ip := cs.takeWhile isDigitCh
  let rest := cs.dropWhile isDigitCh
  match rest with
  | [] => if ip.isEmpty then none else some ((digitsVal ip : ℚ))
  | c :: fp =>
    if c = '.' then
      if fp.all isDigitCh && !(ip.isEmpty && fp.isEmpty) then
        some ((digitsVal ip : ℚ) + (digitsVal fp : ℚ) / (10 : ℚ) ^ fp.length)
      else none
    else none

/-- JS `Number(...)` restricted to the strings this runtime feeds it: an
optional leading `-` followed by digits/one dot.  (`Number` accepts more
exotic forms — exponents, hex, `"Infinity"` — but no code path here can
produce them.) -/
def jsNumber (s : String) : Option ℚ :=
  if s.data.head? = some '-' then (numParse (s.data.drop 1)).map (fun q => -q)
  else numParse s.data

/-! ## Expression trees (`_expression.py`)

`UnaryOp` has a single kind `"neg"`, so it is embedded as a dedicated
constructor. -/

/-- The four binary operator kinds. -/
inductive BinKind
  | add
  | sub
  | mul
  | div
deriving DecidableEq, Repr

/-- `_SYMBOL` table. -/
def symOf : BinKind → String
  | .add => "+"
  | .sub => "-"
  | .mul => "*"
  | .div => "/"

/-- `_PREC` table for binary kinds. -/
def precOf : BinKind → Nat
  | .add => 1
  | .sub => 1
  | .mul => 2
  | .div => 2

/-- `_PREC["neg"]`. -/
def negPrec : Nat := 3

/-- Symbolic expression tree: `SeriesRef`, `Literal`, `UnaryOp("neg")`,
`BinaryOp`. -/
inductive Expr
  | seriesRef (name : String)
  | lit (value : ℚ)
  | neg (operand : Expr)
  | bin (kind : BinKind) (left : Expr) (right : Expr)
deriving DecidableEq, Repr

/-- `_collect_series`: first-occurrence pre-order accumulation of series
names.  (The Python code keeps a `seen` set alongside the order list; the
two always hold the same names, so membership in the accumulator is the
same test.) -/
def collectAux : Expr → List String → List String
  | .seriesRef n, order => if n ∈ order then order else order ++ [n]
  | .lit _, order => order
  | .neg e, order => collectAux e order
  | .bin _ l r, order => collectAux r (collectAux l order)

/-- `Expression.collect_series`. -/
def collectSeries (e : Expr) : List String := collectAux e []

/-- Truncation of a rational toward zero, Python's `int(float)`. -/
def ratTruncInt (q : ℚ) : Int :=
  if q < 0 then -((q.num.natAbs / q.den : Nat) : Int) else ((q.num.natAbs / q.den : Nat) : Int)

/-- Decimal digits of the fractional part `f ∈ [0, 1)`, with fuel.  Fuel
`den` suffices for every rational with a finite decimal expansion. -/
def fracDigs : Nat → ℚ → List Char
  | 0, _ => []
  | fuel + 1, f =>
    if f = 0 then []
    else
      let f10 := f * 10
      let d := ratTruncInt f10
      digitChar d.toNat :: fracDigs fuel (f10 - (d : ℚ))

/-- Python `repr` of a non-integral float, idealized: the exact decimal
expansion of the rational (every float is a dyadic rational, hence has a
finite decimal expansion; `repr`'s shortest-roundtrip and exponent forms are
outside the scope of the claims proved here). -/
def floatRepr (q : ℚ) : String :=
  let sgn := if q < 0 then "-" else ""
  let a := if q < 0 then -q else q
  let ip := ratTruncInt a
  sgn ++ natToDec ip.toNat ++ "." ++ String.mk (fracDigs a.den (a - (ip : ℚ)))

/-- `Literal._to_placeholder`: `str(int(v))` when `v.is_integer()`, else
`repr(v)`. -/
def litRepr (q : ℚ) : String :=
  if q.den = 1 then intToDec q.num else floatRepr q

/-- The `mapping` dict built by `to_placeholder_expression`:
`{name: idx + 1 for idx, name in enumerate(series_order)}` — a later
occurrence of the same name overwrites an earlier one, exactly as in a dict
comprehension. -/
def buildMapping (order : List String) (name : String) : Option Nat :=
  (List.range order.length).foldl
    (fun acc i => if order.get? i = some name then some (i + 1) else acc) none

/-- `_to_placeholder` traversal with the parent-precedence argument;
`none` models the `KeyError` raised for a series name missing from the
mapping. -/
def toPlaceholderAux (m : String → Option Nat) : Expr → Nat → Option String
  | .seriesRef n, _ => (m n).map (fun i => natToDec i)
  | .lit v, _ => some (litRepr v)
  | .neg e, pp =>
    (toPlaceholderAux m e negPrec).map (fun inner =>
      let text := "-" ++ inner
      if negPrec < pp then "(" ++ text ++ ")" else text)
  | .bin k l r, pp =>
    match toPlaceholderAux m l (precOf k) with
    | none => none
    | some lt =>
      let rightPrec := if k = .sub ∨ k = .div then precOf k - 1 else precOf k
      match toPlaceholderAux m r rightPrec with
      | none => none
      | some rt =>
        let e := lt ++ " " ++ symOf k ++ " " ++ rt
        some (if precOf k < pp then "(" ++ e ++ ")" else e)

/-- `Expression.to_placeholder_expression(series_order)`. -/
def toPlaceholderExpression (e : Expr) (order : List String) : Option String :=
  toPlaceholderAux (buildMapping order) e 0

/-! ## Runtime tokenizer (`tokenize` in the generated page) -/

/-- Maximal run of numeric characters at the front of the input, with the
remaining characters. -/
def takeNum : List Char → List Char × List Char
  | [] => ([], [])
  | c :: cs =>
    if isNumCh c then
      let p := takeNum cs
      (c :: p.1, p.2)
    else ([], c :: cs)

/-- One pass of the tokenizer loop.  The first argument is fuel — each
iteration of the JS `while` loop consumes at least one character, so
`length + 1` is always enough; the fuel branch is unreachable (see
`tokLoop_fuel_irrelevant`-style reasoning in the lemmas below for the cases
the claims need). -/
def tokLoop : Nat → List Char → Except String (List String)
  | _, [] => .ok []
  | 0, _ :: _ => .error "Internal: tokenizer fuel exhausted."
  | fuel + 1, c :: cs =>
    if isSpaceCh c then tokLoop fuel cs
    else if isOpCh c then (tokLoop fuel cs).map (fun ts => c.toString :: ts)
    else if isNumCh c then
      let p := takeNum cs
      (tokLoop fuel p.2).map (fun ts => String.mk (c :: p.1) :: ts)
    else .error ("Unexpected character " ++ c.toString ++ " in expression.")

/-- `tokenize(expression)`. -/
def tokenize (s : String) : Except String (List String) :=
  tokLoop (s.data.length + 1) s.data

/-! ## Shunting-yard parser (`shuntingYard` in the generated page) -/

/-- An element of the RPN output queue: an operator string (including the
synthetic `"u-"`), a 0-based series reference, or a numeric literal. -/
inductive RTok
  | op (s : String)
  | region (idx : Nat)
  | literal (v : ℚ)
deriving DecidableEq, Repr

/-- Precedence table of the runtime parser. -/
def rtPrec (s : String) : Nat :=
  if s = "+" ∨ s = "-" then 1
  else if s = "*" ∨ s = "/" then 2
  else if s = "u-" then 3
  else 0

/-- Associativity table of the runtime parser. -/
def rtAssoc (s : String) : String :=
  if s = "u-" then "R" else "L"

/-- The `while` loop run for a binary operator token: pop operators with
higher precedence (or equal precedence when the token is left-associative)
to the output, stopping at `(`. -/
def popOps (token : String) : List String → List RTok × List String
  | [] => ([], [])
  | top :: rest =>
    if top = "(" then ([], top :: rest)
    else if rtPrec top > rtPrec token ∨ (rtPrec top = rtPrec token ∧ rtAssoc token = "L") then
      let p := popOps token rest
      (RTok.op top :: p.1, p.2)
    else ([], top :: rest)

/-- The `while` loop run for `)`: pop to the output until the matching `(`;
`none` models the mismatched-parenthesis throw. -/
def popUntilParen : List String → Option (List RTok × List String)
  | [] => none
  | top :: rest =>
    if top = "(" then some ([], rest)
    else (popUntilParen rest).map (fun p => (RTok.op top :: p.1, p.2))

/-- Main shunting-yard token loop.  Arguments: remaining tokens, output
queue, operator stack (top at head), `expectOperand`. -/
def syLoop (regionCount : Nat) :
    List String → List RTok → List String → Bool → Except String (List RTok)
  | [], output, operators, _ =>
    if operators.any (fun op => op = "(" || op = ")") then
      .error "Mismatched parentheses in expression."
    else .ok (output ++ operators.map RTok.op)
  | token :: ts, output, operators, expectOperand =>
    if token = "(" then
      syLoop regionCount ts output ("(" :: operators) true
    else if token = ")" then
      match popUntilParen operators with
      | none => .error "Mismatched parentheses in expression."
      | some p => syLoop regionCount ts (output ++ p.1) p.2 false
    else if token = "+" ∨ token = "-" ∨ token = "*" ∨ token = "/" then
      if token = "-" ∧ expectOperand then
        syLoop regionCount ts output ("u-" :: operators) expectOperand
      else
        let p := popOps token operators
        syLoop regionCount ts (output ++ p.1) (token :: p.2) true
    else
      match jsNumber token with
      | none => .error ("Invalid number token " ++ token ++ ".")
      | some numeric =>
        let t :=
          if ¬ hasDot token ∧ 1 ≤ numeric ∧ numeric ≤ (regionCount : ℚ) then
            RTok.region (numeric.num.toNat - 1)
          else RTok.literal numeric
        syLoop regionCount ts (output ++ [t]) operators false

/-- `shuntingYard(tokens, regionCount)`. -/
def shuntingYard (tokens : List String) (regionCount : Nat) : Except String (List RTok) :=
  syLoop regionCount tokens [] [] true

/-! ## RPN evaluator (`evaluateExpression` in the generated page) -/

/-- A value on the evaluation stack: a year-indexed array or a scalar. -/
inductive StackVal
  | arr (a : List (Option ℚ))
  | scalar (q : ℚ)
deriving DecidableEq, Repr

/-- One selected series handed to the evaluator (`{index, name, values}`;
the `index` field is never read by the evaluator and is omitted). -/
structure RSeries where
  name : String
  values : List (Option ℚ)
deriving DecidableEq, Repr

/-- `toArray(value, length)`: broadcast a scalar to a full-length array of
(non-null) copies; an array is returned as is (`slice()` copies it). -/
def toArrayV (v : StackVal) (n : Nat) : List (Option ℚ) :=
  match v with
  | .arr a => a
  | .scalar q => List.replicate n (some q)

/-- JS indexing `a[i]` on a nullable array: out-of-range reads give
`undefined`, and the evaluator's `v == null` test identifies `undefined`
with `null`. -/
def jsGet (l : List (Option ℚ)) (i : Nat) : Option ℚ :=
  (l.get? i).join

/-- The per-index body of the binary-operator loop: null-propagation first,
then the operator switch (`/` maps a zero divisor to `null`; an unknown
operator throws). -/
def binAt (op : String) (lv rv : Option ℚ) : Except String (Option ℚ) :=
  match lv, rv with
  | none, _ => .ok none
  | _, none => .ok none
  | some a, some b =>
    if op = "+" then .ok (some (a + b))
    else if op = "-" then .ok (some (a - b))
    else if op = "*" then .ok (some (a * b))
    else if op = "/" then .ok (if b = 0 then none else some (a / b))
    else .error ("Unsupported operator " ++ op ++ ".")

/-- Total description of the same per-index computation for the four real
operators (used to state its properties). -/
def binPt (op : String) (lv rv : Option ℚ) : Option ℚ :=
  match lv, rv with
  | none, _ => none
  | _, none => none
  | some a, some b =>
    if op = "+" then some (a + b)
    else if op = "-" then some (a - b)
    else if op = "*" then some (a * b)
    else if op = "/" then (if b = 0 then none else some (a / b))
    else none

/-- The binary-operator `for` loop over indices `i, i+1, …, i+k-1`: builds
the result array, aborting at the first throw. -/
def binLoop (op : String) (l r : List (Option ℚ)) : Nat → Nat → Except String (List (Option ℚ))
  | _, 0 => .ok []
  | i, k + 1 =>
    match binAt op (jsGet l i) (jsGet r i) with
    | .error e => .error e
    | .ok v => (binLoop op l r (i + 1) k).map (fun vs => v :: vs)

/-- Pointwise combination of two operand arrays over `yearsCount` indices. -/
def binCombine (op : String) (l r : List (Option ℚ)) (n : Nat) :
    Except String (List (Option ℚ)) :=
  binLoop op l r 0 n

/-- The value `binCombine` produces when it does not throw (the four real
operators never throw). -/
def binResult (op : String) (l r : List (Option ℚ)) (n : Nat) : List (Option ℚ) :=
  (List.range n).map (fun i => binPt op (jsGet l i) (jsGet r i))

/-- One step of the RPN loop on the value stack. -/
def evalStep (rs : List RSeries) (n : Nat) (stack : List StackVal) :
    RTok → Except String (List StackVal)
  | .op s =>
    if s = "u-" then
      match stack with
      | [] => .error "Invalid expression: unary operator missing operand."
      | v :: rest =>
        .ok (.arr ((toArrayV v n).map (Option.map (fun x => -x))) :: rest)
    else
      match stack with
      | right :: left :: rest =>
        match binCombine s (toArrayV left n) (toArrayV right n) n with
        | .error e => .error e
        | .ok res => .ok (.arr res :: rest)
      | _ => .error "Invalid expression: binary operator missing operands."
  | .region idx =>
    match rs.get? idx with
    | some sr => .ok (.arr sr.values :: stack)
    | none =>
      .error ("Expression references series #" ++ natToDec (idx + 1) ++ " which is undefined.")
  | .literal v => .ok (.scalar v :: stack)

/-- The RPN token loop. -/
def evalRpn (rs : List RSeries) (n : Nat) : List RTok → List StackVal → Except String (List StackVal)
  | [], stack => .ok stack
  | t :: ts, stack =>
    match evalStep rs n stack t with
    | .error e => .error e
    | .ok st => evalRpn rs n ts st

/-- `evaluateExpression(expression, regionSeries, yearsCount)`. -/
def evaluateExpression (expr : String) (rs : List RSeries) (n : Nat) :
    Except String (List (Option ℚ)) :=
  match tokenize expr with
  | .error e => .error e
  | .ok tokens =>
    match shuntingYard tokens rs.length with
    | .error e => .error e
    | .ok rpn =>
      match evalRpn rs n rpn [] with
      | .error e => .error e
      | .ok [v] => .ok (toArrayV v n)
      | .ok _ => .error "Invalid expression: leftover values after evaluation."

/-! ## Direct tree evaluation -/

/-- Pointwise operator semantics for direct tree evaluation: null
propagation, and `null` for a zero divisor — the arithmetic the runtime
applies, stated on tree operator kinds. -/
def dirOp : BinKind → Option ℚ → Option ℚ → Option ℚ
  | _, none, _ => none
  | _, _, none => none
  | .add, some a, some b => some (a + b)
  | .sub, some a, some b => some (a - b)
  | .mul, some a, some b => some (a * b)
  | .div, some a, some b => if b = 0 then none else some (a / b)

/-- Modelled from the spec: direct evaluation of an `Expression` tree over
series data.  The repository contains no tree evaluator — the spec's §8
round-trip property ("must equal direct tree evaluation over the same
data") refers to this reference semantics: pointwise over `n` year indices,
with null propagation and division-by-zero yielding `null`, matching §4.3's
runtime arithmetic. -/
def evalDirect (env : String → List (Option ℚ)) (n : Nat) : Expr → List (Option ℚ)
  | .seriesRef name => env name
  | .lit v => List.replicate n (some v)
  | .neg e => (evalDirect env n e).map (Option.map (fun x => -x))
  | .bin k l r =>
    let la := evalDirect env n l
    let ra := evalDirect env n r
    (List.range n).map (fun i => dirOp k (jsGet la i) (jsGet ra i))

/-! ## Year normalization (`_normalize_year`) -/

/-- A Python value as passed to `_normalize_year`: int, float, bool, str,
or any other type (named, for the error message). -/
inductive PyVal
  | intV (n : Int)
  | floatV (q : ℚ)
  | boolV (b : Bool)
  | strV (s : String)
  | otherV (tyname : String)
deriving DecidableEq, Repr

/-- Python `float(text)` on the strings this code can meet: optional sign,
digits, at most one dot (the exponent/`inf`/`nan`/underscore forms never
arise from year labels in scope here). -/
def pyFloat (s : String) : Option ℚ := jsNumber s

/-- ASCII whitespace stripped by Python's `str.strip()`. -/
def isPySpace (c : Char) : Bool := decide (c ∈ [' ', '\t', '\n', '\r', '\x0b', '\x0c'])

/-- Python `str.strip()` (ASCII whitespace). -/
def pyStrip (s : String) : String :=
  String.mk (((s.data.dropWhile isPySpace).reverse.dropWhile isPySpace).reverse)

/-- `_normalize_year`: ints and floats are truncated with `str(int(...))`
(a `bool` is excluded and falls through to the type error); strings are
stripped, kept verbatim when all digits, otherwise parsed as a float and
truncated; everything else is a type error. -/
def normalizeYear : PyVal → Except String String
  | .intV n => .ok (intToDec n)
  | .floatV q => .ok (intToDec (ratTruncInt q))
  | .boolV _ => .error "Year value of type bool is not supported."
  | .strV s =>
    let text := pyStrip s
    if text.isEmpty then .error "Year values must not be empty strings."
    else if text.data.all isDigitCh then .ok text
    else
      match pyFloat text with
      | some q => .ok (intToDec (ratTruncInt q))
      | none => .error ("Invalid year value " ++ s ++ ".")
  | .otherV t => .error ("Year value of type " ++ t ++ " is not supported.")

/-! ## Wide-table → dataset conversion (`LineGraph._convert_df`) -/

/-- A non-`Region` column label of the source dataframe: a string, an int,
or a float. -/
inductive ColLabel
  | str (s : String)
  | intL (n : Int)
  | floatL (q : ℚ)
deriving DecidableEq, Repr

/-- Python `str(float)`, idealized like `floatRepr` (an integral float
prints with a trailing `.0`). -/
def pyStrFloat (q : ℚ) : String :=
  if q.den = 1 then intToDec q.num ++ ".0" else floatRepr q

/-- Python `str(col)` on a column label. -/
def ColLabel.toStr : ColLabel → String
  | .str s => s
  | .intL n => intToDec n
  | .floatL q => pyStrFloat q

/-- One dataframe cell, pre-classified by what `pd.isna` / `float(value)`
do with it: missing, coercible to a float with the given value, or
non-numeric (`float` raises). -/
inductive Cell
  | na
  | num (q : ℚ)
  | bad (s : String)
deriving DecidableEq, Repr

/-- The wide table handed to `_convert_df`: whether a `Region` column is
present, the non-`Region` (year) column labels in order, and the rows as
`(str(row["Region"]), cells aligned with the year columns)`. -/
structure WideTable where
  hasRegionCol : Bool
  yearCols : List ColLabel
  rows : List (String × List Cell)
deriving DecidableEq, Repr

/-- The canonical dataset produced by conversion — also the shape of one
entry of the JSON payload's `datasets` object (regions as an ordered
association list, mirroring JS object key order). -/
structure DatasetV where
  years : List String
  regions : List (String × List (Option ℚ))
deriving DecidableEq, Repr

/-- The inner cell loop of `_convert_df` for one row. -/
def convertCells (key region : String) : List (ColLabel × Cell) → Except String (List (Option ℚ))
  | [] => .ok []
  | (col, cell) :: rest =>
    match cell with
    | .na => (convertCells key region rest).map (fun vs => none :: vs)
    | .num q => (convertCells key region rest).map (fun vs => some q :: vs)
    | .bad _ =>
      .error ("Non-numeric value encountered in dataframe " ++ key ++ " for region "
        ++ region ++ ", column " ++ col.toStr ++ ".")

/-- Insertion into the `regions` dict: a repeated region name overwrites
the stored values but keeps the original key position, as a Python dict
does. -/
def dictInsert (l : List (String × List (Option ℚ))) (k : String) (v : List (Option ℚ)) :
    List (String × List (Option ℚ)) :=
  if l.any (fun p => p.1 == k) then
    l.map (fun p => if p.1 = k then (k, v) else p)
  else l ++ [(k, v)]

/-- The row loop of `_convert_df` (`for _, row in df.iterrows()`). -/
def convertRowsAux (key : String) (cols : List ColLabel)
    (acc : List (String × List (Option ℚ))) :
    List (String × List Cell) → Except String (List (String × List (Option ℚ)))
  | [] => .ok acc
  | (region, cells) :: rest =>
    match convertCells key region (cols.zip cells) with
    | .error e => .error e
    | .ok vals => convertRowsAux key cols (dictInsert acc region vals) rest

/-- `LineGraph._convert_df(df, key)`.  The year labels stored in the
dataset are the plain `str(col)` of the non-`Region` columns. -/
def convertDf (t : WideTable) (key : String) : Except String DatasetV :=
  if ¬ t.hasRegionCol then
    .error ("Dataframe " ++ key ++ " must include a Region column.")
  else if t.yearCols.isEmpty then
    .error ("Dataframe " ++ key ++ " must include at least one year column.")
  else
    match convertRowsAux key t.yearCols [] t.rows with
    | .error e => .error e
    | .ok regions =>
      if regions.isEmpty then
        .error ("Dataframe " ++ key ++ " must include at least one region row.")
      else .ok ⟨t.yearCols.map ColLabel.toStr, regions⟩

/-! ## Line-graph chart controller state

The mutable page state `{datasetKey, regionNames, expressions}` and its
event handlers.  DOM bookkeeping (`build*Controls`, Plotly drawing) never
touches these three fields beyond what is modelled here; a JS exception
inside `updateChart`'s `try` block is caught, so the handler leaves behind
whatever state had been written before the throw. -/

/-- `payload.datasets` as an ordered association list (JS object key
order). -/
def lookupDs (p : List (String × DatasetV)) (k : String) : Option DatasetV :=
  (p.find? (fun e => e.1 == k)).map (fun e => e.2)

/-- Controller state. -/
structure LGState where
  datasetKey : String
  regionNames : List String
  expressions : List String
deriving DecidableEq, Repr

/-- The `state.regionNames.map((name, index) => ...)` body of
`ensureRegionSelectionsAvailable`, carrying the running index. -/
def ensureAux (avail : List String) : Nat → List String → List String
  | _, [] => []
  | i, n :: ns =>
    (if n ∈ avail then n else avail.getD (min i (avail.length - 1)) "")
      :: ensureAux avail (i + 1) ns

/-- `ensureRegionSelectionsAvailable(dataset)` after its emptiness throw
check: keep names present in the dataset, replace missing ones by the
available name at the clamped index, and fall back to the first available
name when the list was empty. -/
def ensureRegionSelectionsFn (avail : List String) (names : List String) : List String :=
  let mapped := ensureAux avail 0 names
  if mapped.isEmpty then [avail.getD 0 ""] else mapped

/-- The state effect of `updateChart()`: inside its `try` block it runs
`ensureRegionSelectionsAvailable` (which throws — caught — when the dataset
is missing or has no regions, leaving state unchanged) and
`ensureExpressionsAvailable`; nothing later in the redraw mutates state. -/
def updateChartState (p : List (String × DatasetV)) (s : LGState) : LGState :=
  match lookupDs p s.datasetKey with
  | none => s
  | some ds =>
    let keys := ds.regions.map Prod.fst
    if keys.isEmpty then s
    else
      let s1 := { s with regionNames := ensureRegionSelectionsFn keys s.regionNames }
      { s1 with expressions := if s1.expressions.isEmpty then ["1"] else s1.expressions }

/-- The `dataset-select` change listener: set the key, re-validate the
selections, rebuild controls (`ensureExpressionsAvailable` runs inside
`buildExpressionControls`) and redraw.  This listener has no `try`, so a
throw from `ensureRegionSelectionsAvailable` leaves only the new key
written. -/
def lgChangeDataset (p : List (String × DatasetV)) (s : LGState) (k : String) : LGState :=
  let s0 := { s with datasetKey := k }
  match lookupDs p k with
  | none => s0
  | some ds =>
    let keys := ds.regions.map Prod.fst
    if keys.isEmpty then s0
    else
      let s1 := { s0 with regionNames := ensureRegionSelectionsFn keys s0.regionNames }
      let s2 := { s1 with expressions := if s1.expressions.isEmpty then ["1"] else s1.expressions }
      updateChartState p s2

/-- User interactions that mutate controller state. -/
inductive LGAction
  | changeDataset (key : String)
  | selectRegion (idx : Nat) (name : String)
  | addRegion
  | removeRegion (idx : Nat)
  | editExpression (idx : Nat) (text : String)
  | addExpression
  | removeExpression (idx : Nat)
deriving DecidableEq, Repr

/-- One listener invocation: the state it leaves behind and the status
message written synchronously by the listener's guard branches (redraw
errors also write to the status line but are not distinguished here). -/
def lgStep (p : List (String × DatasetV)) (s : LGState) : LGAction → LGState × Option String
  | .changeDataset k => (lgChangeDataset p s k, none)
  | .selectRegion i name =>
    (updateChartState p { s with regionNames := s.regionNames.set i name }, none)
  | .addRegion =>
    match lookupDs p s.datasetKey with
    | none => (s, none)
    | some ds =>
      let avail := ds.regions.map Prod.fst
      if avail.isEmpty then (s, some "Cannot add series: dataset has no regions.")
      else
        let unused := avail.find? (fun nm => !(s.regionNames.contains nm))
        let s1 := { s with regionNames := s.regionNames ++ [unused.getD (avail.getD 0 "")] }
        (updateChartState p s1, none)
  | .removeRegion i =>
    if s.regionNames.length ≤ 1 then (s, some "At least one series is required.")
    else (updateChartState p { s with regionNames := s.regionNames.eraseIdx i }, none)
  | .editExpression i t =>
    (updateChartState p { s with expressions := s.expressions.set i t }, none)
  | .addExpression =>
    let s1 := { s with expressions :=
      (if s.expressions.isEmpty then ["1"] else s.expressions) ++ ["1"] }
    (updateChartState p s1, none)
  | .removeExpression i =>
    if s.expressions.length ≤ 1 then (s, some "At least one expression is required.")
    else
      let s1 := { s with expressions := s.expressions.eraseIdx i }
      let s2 := { s1 with expressions := if s1.expressions.isEmpty then ["1"] else s1.expressions }
      (updateChartState p s2, none)

/-- A sequence of interactions, keeping only the state. -/
def lgRun (p : List (String × DatasetV)) (s : LGState) (acts : List LGAction) : LGState :=
  acts.foldl (fun st a => (lgStep p st a).1) s

/-! ## Administration boundary lines (numeric-year path of `updateChart`) -/

/-- One administration record of the payload (`end` is a reserved word, so
the field is `stop`); `color` is `null`-able, defaulted with
`admin.color || "#94a3b8"`. -/
structure AdminRec where
  start : String
  stop : String
  color : Option String
deriving DecidableEq, Repr

/-- `toNumericOrNull(value)`: `Number(value)` with `NaN ↦ null`. -/
def toNumericOrNull (s : String) : Option ℚ := jsNumber s

/-- The dedup key handed to `addBoundary`: the JS code builds the strings
`"start-" + value` and `"end-" + value`.  Rendering of a number is
injective, so the string keys are modelled by this tagged pair. -/
inductive BKey
  | bstart (v : ℚ)
  | bend (v : ℚ)
deriving DecidableEq, Repr

/-- A boundary line shape (only the position and color matter here). -/
structure BoundaryLine where
  x : ℚ
  color : String
deriving DecidableEq, Repr

/-- `addBoundary(value, key, color)` over the accumulated
`(seenBoundaries, boundaryLines)` pair. -/
def addBoundary (acc : List BKey × List BoundaryLine) (value : Option ℚ) (key : BKey)
    (color : String) : List BKey × List BoundaryLine :=
  match value with
  | none => acc
  | some x =>
    if key ∈ acc.1 then acc
    else (key :: acc.1, acc.2 ++ [⟨x, color⟩])

/-- The `administrations.forEach` loop drawing boundary lines, in the
numeric-years branch: each admin contributes its start and end positions
when they are non-`NaN` and inside the displayed `[xRangeMin, xRangeMax]`
domain. -/
def boundariesNumeric (admins : List AdminRec) (xRangeMin xRangeMax : ℚ) : List BoundaryLine :=
  (admins.foldl
    (fun acc a =>
      let color := a.color.getD "#94a3b8"
      let startN := toNumericOrNull a.start
      let endN := toNumericOrNull a.stop
      let acc1 :=
        match startN with
        | some v =>
          if xRangeMin ≤ v ∧ v ≤ xRangeMax then addBoundary acc (some v) (.bstart v) color
          else acc
        | none => acc
      match endN with
      | some v =>
        if xRangeMin ≤ v ∧ v ≤ xRangeMax then addBoundary acc1 (some v) (.bend v) color
        else acc1
      | none => acc1)
    ([], [])).2

/-! ## Scatter controller (`_scatter_plot.py`) -/

/-- `payload.datasets[key]` for the scatter page; a missing key gives JS
`undefined`, whose property accesses throw — modelled by the empty dataset,
which makes every downstream intersection empty and aborts the redraw the
same way. -/
def getDatasetP (p : List (String × DatasetV)) (k : String) : DatasetV :=
  ((p.find? (fun e => e.1 == k)).map (fun e => e.2)).getD ⟨[], []⟩

/-- `computeCommonYears(xKey, yKey)`: X's year labels filtered by
membership in Y's. -/
def computeCommonYears (p : List (String × DatasetV)) (xKey yKey : String) : List String :=
  (getDatasetP p xKey).years.filter
    (fun y => decide (y ∈ (getDatasetP p yKey).years))

/-- Insertion into an ascending list by JS string comparison. -/
def insertStr (x : String) : List String → List String
  | [] => [x]
  | y :: ys => if x < y then x :: y :: ys else y :: insertStr x ys

/-- `Array.prototype.sort()` on strings, modelled as insertion sort by the
lexicographic order. -/
def sortStrs : List String → List String
  | [] => []
  | x :: xs => insertStr x (sortStrs xs)

/-- `computeCommonRegions(xKey, yKey)`: X's region names filtered by
membership in Y's, sorted. -/
def computeCommonRegions (p : List (String × DatasetV)) (xKey yKey : String) : List String :=
  sortStrs (((getDatasetP p xKey).regions.map Prod.fst).filter
    (fun r => decide (r ∈ (getDatasetP p yKey).regions.map Prod.fst)))

/-- Scatter controller state (the slider DOM fields and per-region path
history are not needed by the properties proved here). -/
structure ScState where
  xKey : String
  yKey : String
  yearIndex : Option Int
  year : String
  yearOptions : List String
deriving DecidableEq, Repr

/-- JS `Array.prototype.indexOf`: index of the first occurrence, `-1` when
absent. -/
def jsIndexOf (l : List String) (x : String) : Int :=
  match l.indexOf? x with
  | some i => (i : Int)
  | none => -1

/-- `ensureYearStateAvailable()`: recompute the shared years, clamp the
selected index into them, and store the options. -/
def ensureYearState (p : List (String × DatasetV)) (s : ScState) : Except String ScState :=
  let years := computeCommonYears p s.xKey s.yKey
  if years.isEmpty then .error "Selected axes do not share any year columns."
  else
    let idx0 : Int :=
      match s.yearIndex with
      | none => jsIndexOf years s.year
      | some i => if i < 0 ∨ (years.length : Int) ≤ i then jsIndexOf years s.year else i
    let idx1 : Int := if idx0 = -1 then (years.length : Int) - 1 else idx0
    let idx2 : Int := if idx1 < 0 then 0 else idx1
    .ok { s with yearIndex := some idx2, year := years.getD idx2.toNat "", yearOptions := years }

/-- The `x-axis`/`y-axis` change listeners: write the new key, run
`ensureYearStateAvailable` (uncaught if it throws), then redraw —
`updateChart` re-runs `ensureYearStateAvailable` inside its `try`, with
errors caught. -/
def onAxisChange (p : List (String × DatasetV)) (s : ScState) (isX : Bool) (k : String) :
    Except String ScState :=
  let s0 := if isX then { s with xKey := k } else { s with yKey := k }
  match ensureYearState p s0 with
  | .error e => .error e
  | .ok s1 =>
    match ensureYearState p s1 with
    | .error _ => .ok s1
    | .ok s2 => .ok s2

/-! ## Helper lemmas for the concrete runtime computations -/

/-- Tokenizing the serialized form of the two subtraction trees. -/
theorem tokenize_sub_chain : tokenize "1 - 2 - 3" = .ok ["1", "-", "2", "-", "3"] := by
  simp +decide only [tokenize, tokLoop, takeNum, isSpaceCh, isOpCh, isNumCh, isDigitCh, Except.map]

/-- Parsing the serialized form of the two subtraction trees: `-` is
left-associative, so the RPN is `((1 - 2) - 3)`. -/
theorem shuntingYard_sub_chain :
    shuntingYard ["1", "-", "2", "-", "3"] 3 =
      .ok [.region 0, .region 1, .op "-", .region 2, .op "-"] := by
  simp +decide only [shuntingYard, syLoop, jsNumber, numParse, hasDot, digitsVal, digitVal,
    isDigitCh, List.takeWhile, List.dropWhile, List.isEmpty, List.foldl, popOps, rtPrec,
    rtAssoc, List.any, List.map]

/-- Runtime evaluation of `"1 - 2 - 3"` over `a = 10, b = 3, c = 1` gives
`(10 - 3) - 1 = 6`. -/
theorem evaluate_sub_chain :
    evaluateExpression "1 - 2 - 3"
      [⟨"a", [some 10]⟩, ⟨"b", [some 3]⟩, ⟨"c", [some 1]⟩] 1 = .ok [some 6] := by
  have h3 : evalRpn [⟨"a", [some 10]⟩, ⟨"b", [some 3]⟩, ⟨"c", [some 1]⟩] 1
      [.region 0, .region 1, .op "-", .region 2, .op "-"] [] = .ok [.arr [some 6]] := by
    norm_num +decide [evalRpn, evalStep, binCombine, binLoop, binAt, jsGet, List.get?,
      Option.join, toArrayV, Except.map]
  simp [evaluateExpression, tokenize_sub_chain, shuntingYard_sub_chain, h3, toArrayV]

/-- `float("2018.5")` parses to `4037/2`. -/
theorem pyFloat_fractional_label : pyFloat "2018.5" = some ((4037 : ℚ) / 2) := by
  have h1 : digitsVal ['2', '0', '1', '8'] = 2018 := by decide
  have h2 : digitsVal ['5'] = 5 := by decide
  simp +decide [pyFloat, jsNumber, numParse, List.takeWhile, List.dropWhile, isDigitCh,
    List.isEmpty, List.all, h1, h2]
  norm_num

/-- `int(2018.5)` truncates to `2018`. -/
theorem ratTruncInt_fractional_label : ratTruncInt ((4037 : ℚ) / 2) = 2018 := by
  have hd : ((4037 : ℚ) / 2).den = 2 := by norm_num
  have hn : ((4037 : ℚ) / 2).num = 4037 := by norm_num
  rw [ratTruncInt, if_neg (by norm_num), hd, hn]
  decide

/-- `str(2018.5)` renders as `"2018.5"`. -/
theorem pyStrFloat_fractional_label : pyStrFloat ((4037 : ℚ) / 2) = "2018.5" := by
  have hd : ((4037 : ℚ) / 2).den = 2 := by norm_num
  have hpos : ¬ ((4037 : ℚ) / 2 < 0) := by norm_num
  have hfr : (4037 : ℚ) / 2 - ((2018 : ℤ) : ℚ) = 1 / 2 := by norm_num
  have habs : (if (4037 : ℚ) / 2 < 0 then -((4037 : ℚ) / 2) else (4037 : ℚ) / 2) = 4037 / 2 := by
    rw [if_neg hpos]
  have hf1 : fracDigs 2 (1 / 2) = ['5'] := by
    rw [fracDigs, if_neg (by norm_num)]
    have h10 : (1 / 2 : ℚ) * 10 = 5 := by norm_num
    have ht5 : ratTruncInt (5 : ℚ) = 5 := by
      rw [ratTruncInt, if_neg (by norm_num)]
      norm_num
    simp only [h10, ht5]
    rw [show ((5 : ℚ) - ((5 : ℤ) : ℚ)) = 0 from by norm_num]
    rw [fracDigs]
    simp
    decide
  rw [pyStrFloat, if_neg (by rw [hd]; decide)]
  rw [floatRepr]
  simp only [habs, if_neg hpos, ratTruncInt_fractional_label, hd, hfr, hf1]
  decide

/-! ## Claim theorems -/

/-- C1 (code bug evidence): the round-trip contract fails on the tree
`series("a") - (series("b") - series("c"))`.  `collect_series` gives
`["a", "b", "c"]`; `to_placeholder_expression` renders the tree as
`"1 - 2 - 3"` with no parentheses around the right operand (the right
operand of `sub`/`div` is rendered with parent precedence `prec - 1`, which
can never force parentheses), so the runtime re-parses it
left-associatively and evaluates it to `(10 - 3) - 1 = 6` over
`a = [10], b = [3], c = [1]`, while direct evaluation of the tree gives
`10 - (3 - 1) = 8`. -/
theorem roundtrip_fails_on_right_nested_sub :
    collectSeries (Expr.bin .sub (.seriesRef "a") (Expr.bin .sub (.seriesRef "b") (.seriesRef "c")))
      = ["a", "b", "c"] ∧
    toPlaceholderExpression
        (Expr.bin .sub (.seriesRef "a") (Expr.bin .sub (.seriesRef "b") (.seriesRef "c")))
        ["a", "b", "c"] = some "1 - 2 - 3" ∧
    evaluateExpression "1 - 2 - 3"
        [⟨"a", [some 10]⟩, ⟨"b", [some 3]⟩, ⟨"c", [some 1]⟩] 1 = .ok [some 6] ∧
    evalDirect
        (fun nm => if nm = "a" then [some 10] else if nm = "b" then [some 3]
          else if nm = "c" then [some 1] else []) 1
        (Expr.bin .sub (.seriesRef "a") (Expr.bin .sub (.seriesRef "b") (.seriesRef "c")))
      = [some 8] := by
  refine ⟨by decide, by decide, evaluate_sub_chain, ?_⟩
  norm_num +decide [evalDirect, dirOp, jsGet, List.get?, Option.join, List.range_succ,
    List.range_zero, List.map_cons, List.map_nil, List.getElem?_cons_zero, List.getElem?_nil,
    Option.bind]

/-- C2 (code bug evidence): `(a - b) - c` and `a - (b - c)` serialize to
the *same* string `"1 - 2 - 3"` — the right operand keeps no parentheses,
because `BinaryOp._to_placeholder` renders the right operand of `sub` with
parent precedence `prec - 1 = 0`, which no subtree's precedence is below —
and the shared string evaluates to `6` (not to the pair `6` / `8` the spec
requires) for `a = 10, b = 3, c = 1`. -/
theorem sub_right_operand_not_parenthesized :
    toPlaceholderExpression
        (Expr.bin .sub (Expr.bin .sub (.seriesRef "a") (.seriesRef "b")) (.seriesRef "c"))
        ["a", "b", "c"] = some "1 - 2 - 3" ∧
    toPlaceholderExpression
        (Expr.bin .sub (.seriesRef "a") (Expr.bin .sub (.seriesRef "b") (.seriesRef "c")))
        ["a", "b", "c"] = some "1 - 2 - 3" ∧
    evaluateExpression "1 - 2 - 3"
        [⟨"a", [some 10]⟩, ⟨"b", [some 3]⟩, ⟨"c", [some 1]⟩] 1 = .ok [some 6] :=
  ⟨by decide, by decide, evaluate_sub_chain⟩

/-- C3 (code bug evidence): for the adjacent administrations `1964–1966`
and `1966–1977` on a numeric-year domain `[1964, 1977]`, the controller
draws four boundary lines — two of them at the shared year `1966` — because
the dedup keys are prefixed `start-`/`end-`, so the first administration's
end (`end-1966`) and the second's start (`start-1966`) are treated as
different boundaries. -/
theorem shared_admin_boundary_drawn_twice :
    boundariesNumeric
        [⟨"1964", "1966", some "#112233"⟩, ⟨"1966", "1977", some "#445566"⟩] 1964 1977 =
      [⟨1964, "#112233"⟩, ⟨1966, "#112233"⟩, ⟨1966, "#445566"⟩, ⟨1977, "#445566"⟩] ∧
    (boundariesNumeric
        [⟨"1964", "1966", some "#112233"⟩, ⟨"1966", "1977", some "#445566"⟩] 1964 1977).countP
      (fun b => b.x == 1966) = 2 := by
  constructor
  · decide
  · decide

/-- C4 (counterexample): conversion performs no year normalization.  A
dataframe whose single year column is labelled by the float `2018.5` — a
float with a fractional part — converts successfully, storing the
non-canonical year label `"2018.5"`; and even `_normalize_year` itself
(applied only to administration years, never by `_convert_df`) does not
fail on fractional values: it truncates both the string `"2018.5"` and the
float `2018.5` to `"2018"`. -/
theorem convert_keeps_fractional_year_label :
    convertDf ⟨true, [ColLabel.floatL ((4037 : ℚ) / 2)], [("India", [Cell.num 7])]⟩ "gdp" =
      .ok ⟨["2018.5"], [("India", [some 7])]⟩ ∧
    normalizeYear (.strV "2018.5") = .ok "2018" ∧
    normalizeYear (.floatV ((4037 : ℚ) / 2)) = .ok "2018" := by
  refine ⟨?_, ?_, ?_⟩
  · simp +decide [convertDf, convertRowsAux, convertCells, dictInsert, List.zip,
      ColLabel.toStr, pyStrFloat_fractional_label, List.zipWith]
  · have hstrip : pyStrip "2018.5" = "2018.5" := by decide
    have hdig : ("2018.5".data.all isDigitCh) = false := by decide
    simp only [normalizeYear, hstrip]
    rw [if_neg (by decide), if_neg (by simp [hdig]), pyFloat_fractional_label]
    simp only [ratTruncInt_fractional_label]
    decide
  · simp only [normalizeYear, ratTruncInt_fractional_label]
    decide

/-- C4 (amended): the year labels stored by `_convert_df` are exactly the
plain `str(col)` renderings of the non-`Region` columns — no normalization
or `InvalidYear` validation is applied during conversion. -/
theorem convert_years_are_raw_str_labels :
    ∀ (t : WideTable) (key : String) (ds : DatasetV),
      convertDf t key = .ok ds → ds.years = t.yearCols.map ColLabel.toStr := by
  intro t key ds h
  rw [convertDf] at h
  split_ifs at h
  cases hr : convertRowsAux key t.yearCols [] t.rows with
  | error e => rw [hr] at h; exact absurd h (by simp)
  | ok regions =>
    rw [hr] at h
    by_cases hre : regions.isEmpty
    · simp [hre] at h
    · simp [hre] at h
      subst h
      rfl

/-- Witness for the amended C4 theorem at a concrete table. -/
theorem convert_years_are_raw_str_labels_witness :
    (⟨["2020"], [("India", [some 7])]⟩ : DatasetV).years =
      [ColLabel.str "2020"].map ColLabel.toStr :=
  convert_years_are_raw_str_labels
    ⟨true, [ColLabel.str "2020"], [("India", [Cell.num 7])]⟩ "gdp"
    ⟨["2020"], [("India", [some 7])]⟩ (by decide)

/-! ## Null propagation and division by zero (claims C5, C6) -/

/-- For the four real operators the per-index body never throws and
computes `binPt`. -/
theorem binAt_eq_ok (op : String)
    (h : op = "+" ∨ op = "-" ∨ op = "*" ∨ op = "/") (lv rv : Option ℚ) :
    binAt op lv rv = .ok (binPt op lv rv) := by
  rcases h with h | h | h | h <;> subst h <;>
    cases lv <;> cases rv <;> simp [binAt, binPt]

/-- The binary-operator loop over indices `i, …, i+k-1` succeeds for the
four real operators, producing the pointwise values. -/
theorem binLoop_eq_ok (op : String)
    (h : op = "+" ∨ op = "-" ∨ op = "*" ∨ op = "/") (l r : List (Option ℚ)) :
    ∀ (k i : Nat),
      binLoop op l r i k = .ok ((List.range' i k).map fun j => binPt op (jsGet l j) (jsGet r j)) := by
  intro k
  induction k with
  | zero => intro i; simp [binLoop, List.range']
  | succ m ih =>
    intro i
    rw [binLoop, binAt_eq_ok op h, ih (i + 1)]
    simp [List.range'_succ, Except.map]

/-- `binCombine` for the four real operators: no exception, and the result
is `binResult`. -/
theorem binCombine_eq_ok (op : String)
    (h : op = "+" ∨ op = "-" ∨ op = "*" ∨ op = "/") (l r : List (Option ℚ)) (n : Nat) :
    binCombine op l r n = .ok (binResult op l r n) := by
  rw [binCombine, binLoop_eq_ok op h l r n 0, binResult, List.range_eq_range']

/-- Pointwise characterization of `binResult`. -/
theorem binResult_get? (op : String) (l r : List (Option ℚ)) (n : Nat) (i : Nat) (hi : i < n) :
    (binResult op l r n).get? i = some (binPt op (jsGet l i) (jsGet r i)) := by
  rw [binResult, List.get?_map, List.get?_range hi]
  rfl

/-- C5: every binary operator of the RPN evaluator propagates `null`:
applying `+`, `-`, `*` or `/` to two operand arrays throws no exception
(`binCombine` returns `ok`), and at every index below the year count where
either operand is `null`, the result is `null`. -/
theorem binary_op_null_propagation :
    ∀ (op : String), op = "+" ∨ op = "-" ∨ op = "*" ∨ op = "/" →
    ∀ (l r : List (Option ℚ)) (n : Nat),
      binCombine op l r n = .ok (binResult op l r n) ∧
      ∀ i, i < n → (jsGet l i = none ∨ jsGet r i = none) →
        (binResult op l r n).get? i = some none := by
  intro op h l r n
  refine ⟨binCombine_eq_ok op h l r n, ?_⟩
  intro i hi hnull
  rw [binResult_get? op l r n i hi]
  rcases hnull with hn | hn
  · rw [hn]; cases jsGet r i <;> rfl
  · rw [hn]; cases jsGet l i <;> rfl

/-- Witness for C5: `+` on `[null, 1]` and `[2, 3]` over two indices
returns `ok` and yields `null` at index 0. -/
theorem binary_op_null_propagation_witness :
    binCombine "+" [none, some 1] [some 2, some 3] 2 =
      .ok (binResult "+" [none, some 1] [some 2, some 3] 2) ∧
    (binResult "+" [none, some 1] [some 2, some 3] 2).get? 0 = some none :=
  ⟨(binary_op_null_propagation "+" (Or.inl rfl) [none, some 1] [some 2, some 3] 2).1,
   (binary_op_null_propagation "+" (Or.inl rfl) [none, some 1] [some 2, some 3] 2).2
     0 (by decide) (Or.inl (by decide))⟩

/-- C6: division by zero is local and silent: `binCombine "/"` never
throws; its result is pointwise — the value at index `i` depends only on
the operands at `i` — with `null` exactly where the divisor is `0` (or an
operand is `null`), and the ordinary quotient where the divisor is
non-zero. -/
theorem division_by_zero_yields_null_locally :
    ∀ (l r : List (Option ℚ)) (n : Nat),
      binCombine "/" l r n = .ok (binResult "/" l r n) ∧
      (binResult "/" l r n).length = n ∧
      (∀ i, i < n →
        (binResult "/" l r n).get? i = some (binPt "/" (jsGet l i) (jsGet r i))) ∧
      (∀ a : ℚ, binPt "/" (some a) (some 0) = none) ∧
      (∀ a b : ℚ, b ≠ 0 → binPt "/" (some a) (some b) = some (a / b)) := by
  intro l r n
  refine ⟨binCombine_eq_ok "/" (by simp) l r n, ?_, ?_, ?_, ?_⟩
  · rw [binResult, List.length_map, List.length_range]
  · intro i hi; exact binResult_get? "/" l r n i hi
  · intro a; simp [binPt]
  · intro a b hb; simp [binPt, hb]

/-- Witness for C6: dividing `[10, 20]` by `[0, 5]` over two indices gives
`null` at the zero-divisor index and `4` at the other. -/
theorem division_by_zero_yields_null_locally_witness :
    binCombine "/" [some 10, some 20] [some 0, some 5] 2 =
      .ok (binResult "/" [some 10, some 20] [some 0, some 5] 2) ∧
    (binResult "/" [some 10, some 20] [some 0, some 5] 2).get? 0 = some none := by
  refine ⟨(division_by_zero_yields_null_locally [some 10, some 20] [some 0, some 5] 2).1, ?_⟩
  rw [(division_by_zero_yields_null_locally [some 10, some 20] [some 0, some 5] 2).2.2.1
    0 (by decide)]
  rw [show jsGet [some (10 : ℚ), some 20] 0 = some 10 from rfl,
    show jsGet [some (0 : ℚ), some 5] 0 = some 0 from rfl,
    (division_by_zero_yields_null_locally [some 10, some 20] [some 0, some 5] 2).2.2.2.1 10]

/-! ## Controller state lemmas (claims C7, C8) -/

/-- Element lookup in `ensureAux`: position `i` keeps a name present in the
dataset and replaces an absent one by the available name at the clamped
index. -/
theorem ensureAux_get? (avail : List String) :
    ∀ (names : List String) (start i : Nat),
      (ensureAux avail start names).get? i =
        (names.get? i).map (fun nm =>
          if nm ∈ avail then nm else avail.getD (min (start + i) (avail.length - 1)) "") := by
  intro names
  induction names with
  | nil => intro start i; simp [ensureAux]
  | cons x xs ih =>
    intro start i
    cases i with
    | zero => simp [ensureAux]
    | succ j =>
      simp only [ensureAux, List.get?_cons_succ, ih (start + 1) j]
      rw [show start + 1 + j = start + (j + 1) from by omega]

/-- `ensureAux` preserves length. -/
theorem ensureAux_length (avail : List String) :
    ∀ (names : List String) (start : Nat), (ensureAux avail start names).length = names.length := by
  intro names
  induction names with
  | nil => intro start; rfl
  | cons x xs ih => intro start; simp [ensureAux, ih (start + 1)]

/-- `getD` at an in-range index is a member. -/
theorem getD_mem : ∀ (l : List String) (j : Nat) (d : String), j < l.length → l.getD j d ∈ l := by
  intro l
  induction l with
  | nil => intro j d h; simp at h
  | cons x xs ih =>
    intro j d h
    cases j with
    | zero => simp [List.getD]
    | succ m =>
      simp only [List.getD_cons_succ]
      exact List.mem_cons_of_mem x (ih m d (by simpa using h))

/-- Every element `ensureAux` produces is available, provided the dataset
has at least one region. -/
theorem ensureAux_mem (avail : List String) (hne : avail ≠ []) :
    ∀ (names : List String) (start : Nat) (x : String),
      x ∈ ensureAux avail start names → x ∈ avail ∨ x ∈ names ∧ x ∈ avail := by
  intro names
  induction names with
  | nil => intro start x h; simp [ensureAux] at h
  | cons nm ns ih =>
    intro start x h
    simp only [ensureAux, List.mem_cons] at h
    rcases h with h | h
    · by_cases hmem : nm ∈ avail
      · rw [if_pos hmem] at h; subst h; exact Or.inl hmem
      · rw [if_neg hmem] at h
        subst h
        left
        apply getD_mem
        have : 0 < avail.length := List.length_pos.mpr hne
        omega
    · rcases ih (start + 1) x h with h' | h'
      · exact Or.inl h'
      · exact Or.inl h'.2

/-- `ensureRegionSelectionsFn` never returns an empty list. -/
theorem ensureRegionSelectionsFn_ne_nil (avail names : List String) :
    ensureRegionSelectionsFn avail names ≠ [] := by
  rw [ensureRegionSelectionsFn]
  by_cases h : (ensureAux avail 0 names).isEmpty
  · simp [h]
  · simp [h]
    intro hContra
    rw [hContra] at h
    simp at h

/-- Members of the re-validated selection are available names. -/
theorem ensureRegionSelectionsFn_mem (avail names : List String) (hne : avail ≠ [])
    (x : String) (hx : x ∈ ensureRegionSelectionsFn avail names) : x ∈ avail := by
  rw [ensureRegionSelectionsFn] at hx
  by_cases h : (ensureAux avail 0 names).isEmpty
  · rw [if_pos h] at hx
    simp only [List.mem_singleton] at hx
    subst hx
    exact getD_mem avail 0 "" (List.length_pos.mpr hne)
  · rw [if_neg h] at hx
    rcases ensureAux_mem avail hne names 0 x hx with h' | h'
    · exact h'
    · exact h'.2

/-- Re-validating a selection whose names are all available is the
identity. -/
theorem ensureAux_of_valid (avail : List String) :
    ∀ (names : List String) (start : Nat), (∀ x ∈ names, x ∈ avail) →
      ensureAux avail start names = names := by
  intro names
  induction names with
  | nil => intro start _; rfl
  | cons nm ns ih =>
    intro start hall
    rw [ensureAux, if_pos (hall nm (by simp)), ih (start + 1) (fun x hx => hall x (by simp [hx]))]

/-- Running the re-validation twice is the same as running it once. -/
theorem ensureRegionSelectionsFn_stable (avail names : List String) (hne : avail ≠ []) :
    ensureRegionSelectionsFn avail (ensureRegionSelectionsFn avail names) =
      ensureRegionSelectionsFn avail names := by
  have hmem := fun x hx => ensureRegionSelectionsFn_mem avail names hne x hx
  have hnn := ensureRegionSelectionsFn_ne_nil avail names
  rw [ensureRegionSelectionsFn, ensureAux_of_valid avail _ 0 hmem]
  rw [if_neg (by simpa [List.isEmpty_iff] using hnn)]

/-- `updateChartState` keeps both slot lists non-empty. -/
theorem updateChartState_preserves (p : List (String × DatasetV)) (s : LGState)
    (hr : s.regionNames ≠ []) (he : s.expressions ≠ []) :
    (updateChartState p s).regionNames ≠ [] ∧ (updateChartState p s).expressions ≠ [] := by
  rw [updateChartState]
  cases lookupDs p s.datasetKey with
  | none => exact ⟨hr, he⟩
  | some ds =>
    by_cases hk : (ds.regions.map Prod.fst).isEmpty
    · simp only [hk, if_true]
      exact ⟨hr, he⟩
    · simp only [hk, if_false]
      refine ⟨ensureRegionSelectionsFn_ne_nil _ _, ?_⟩
      by_cases hex : s.expressions.isEmpty
      · simp [hex]
      · simp [hex, he]

/-- A non-empty list with at least two elements stays non-empty after
`eraseIdx`. -/
theorem eraseIdx_ne_nil : ∀ (l : List String) (i : Nat), 2 ≤ l.length → l.eraseIdx i ≠ [] := by
  intro l i h
  match l, i with
  | [], _ => simp at h
  | [a], _ => simp at h
  | a :: b :: t, 0 => simp [List.eraseIdx]
  | a :: b :: t, i + 1 => simp [List.eraseIdx]

/-- Every single interaction keeps both slot lists non-empty. -/
theorem lgStep_preserves (p : List (String × DatasetV)) (s : LGState) (a : LGAction)
    (hr : s.regionNames ≠ []) (he : s.expressions ≠ []) :
    (lgStep p s a).1.regionNames ≠ [] ∧ (lgStep p s a).1.expressions ≠ [] := by
  cases a with
  | changeDataset k =>
    simp only [lgStep, lgChangeDataset]
    cases lookupDs p k with
    | none => exact ⟨hr, he⟩
    | some ds =>
      by_cases hk : (ds.regions.map Prod.fst).isEmpty
      · simp only [hk, if_true]
        exact ⟨hr, he⟩
      · simp only [hk, if_false]
        apply updateChartState_preserves
        · exact ensureRegionSelectionsFn_ne_nil _ _
        · by_cases hex : s.expressions.isEmpty
          · simp [hex]
          · simp [hex, he]
  | selectRegion i name =>
    apply updateChartState_preserves
    · simpa [← List.length_pos, List.length_set] using List.length_pos.mpr hr
    · exact he
  | addRegion =>
    simp only [lgStep]
    cases lookupDs p s.datasetKey with
    | none => exact ⟨hr, he⟩
    | some ds =>
      by_cases hk : (ds.regions.map Prod.fst).isEmpty
      · simp only [hk, if_true]
        exact ⟨hr, he⟩
      · simp only [hk, if_false]
        apply updateChartState_preserves
        · simp
        · exact he
  | removeRegion i =>
    simp only [lgStep]
    by_cases hlen : s.regionNames.length ≤ 1
    · simp only [hlen, if_true]
      exact ⟨hr, he⟩
    · simp only [hlen, if_false]
      apply updateChartState_preserves
      · exact eraseIdx_ne_nil _ _ (by omega)
      · exact he
  | editExpression i t =>
    apply updateChartState_preserves
    · exact hr
    · simpa [← List.length_pos, List.length_set] using List.length_pos.mpr he
  | addExpression =>
    apply updateChartState_preserves
    · exact hr
    · simp
  | removeExpression i =>
    simp only [lgStep]
    by_cases hlen : s.expressions.length ≤ 1
    · simp only [hlen, if_true]
      exact ⟨hr, he⟩
    · simp only [hlen, if_false]
      apply updateChartState_preserves
      · exact hr
      · by_cases hex : (s.expressions.eraseIdx i).isEmpty
        · simp [hex]
        · simp [hex]
          simpa [List.isEmpty_iff] using hex

/-- C7: dropping below one slot is refused: removing the only remaining
series slot (or the only remaining expression slot) returns the state
unchanged together with the status message, and consequently every state
reachable by any interaction sequence from a state with at least one series
slot and one expression slot still has at least one of each. -/
theorem min_one_slot_invariant :
    (∀ (p : List (String × DatasetV)) (s : LGState) (i : Nat), s.regionNames.length = 1 →
      lgStep p s (.removeRegion i) = (s, some "At least one series is required.")) ∧
    (∀ (p : List (String × DatasetV)) (s : LGState) (i : Nat), s.expressions.length = 1 →
      lgStep p s (.removeExpression i) = (s, some "At least one expression is required.")) ∧
    (∀ (p : List (String × DatasetV)) (s : LGState) (acts : List LGAction),
      s.regionNames ≠ [] → s.expressions ≠ [] →
      (lgRun p s acts).regionNames ≠ [] ∧ (lgRun p s acts).expressions ≠ []) := by
  refine ⟨?_, ?_, ?_⟩
  · intro p s i h
    simp [lgStep, h]
  · intro p s i h
    simp [lgStep, h]
  · intro p s acts
    induction acts generalizing s with
    | nil => intro hr he; exact ⟨hr, he⟩
    | cons a as ih =>
      intro hr he
      have h := lgStep_preserves p s a hr he
      exact ih _ h.1 h.2

/-- Witness for C7 at a concrete one-slot state. -/
theorem min_one_slot_invariant_witness :
    lgStep [] ⟨"gdp", ["India"], ["1"]⟩ (.removeRegion 0) =
      (⟨"gdp", ["India"], ["1"]⟩, some "At least one series is required.") ∧
    lgStep [] ⟨"gdp", ["India"], ["1"]⟩ (.removeExpression 0) =
      (⟨"gdp", ["India"], ["1"]⟩, some "At least one expression is required.") ∧
    ((lgRun [] ⟨"gdp", ["India"], ["1"]⟩ [.addExpression, .removeRegion 0]).regionNames ≠ [] ∧
      (lgRun [] ⟨"gdp", ["India"], ["1"]⟩ [.addExpression, .removeRegion 0]).expressions ≠ []) :=
  ⟨min_one_slot_invariant.1 [] ⟨"gdp", ["India"], ["1"]⟩ 0 rfl,
   min_one_slot_invariant.2.1 [] ⟨"gdp", ["India"], ["1"]⟩ 0 rfl,
   min_one_slot_invariant.2.2 [] ⟨"gdp", ["India"], ["1"]⟩ [.addExpression, .removeRegion 0]
     (by decide) (by decide)⟩

/-- Helper: for a non-empty selection, re-validation is the indexed map. -/
theorem ensureRegionSelectionsFn_of_ne_nil (avail names : List String) (h : names ≠ []) :
    ensureRegionSelectionsFn avail names = ensureAux avail 0 names := by
  rw [ensureRegionSelectionsFn, if_neg]
  intro hE
  rw [List.isEmpty_iff] at hE
  have := ensureAux_length avail names 0
  rw [hE] at this
  exact h (List.eq_nil_of_length_eq_zero this.symm)

/-- C8: after a dataset switch, `ensureRegionSelectionsAvailable` keeps
every slot whose name exists in the new dataset, replaces an absent name
positionally by the available name at the clamped index, turns an empty
slot list into the first available name, and always yields a non-empty
list of names present in the new dataset; the `dataset-select` handler
applies exactly this re-validation and stores the new key. -/
theorem dataset_switch_revalidation :
    (∀ (avail names : List String), avail ≠ [] →
      (∀ (i : Nat) (nm : String), names.get? i = some nm → nm ∈ avail →
        (ensureRegionSelectionsFn avail names).get? i = some nm) ∧
      (∀ (i : Nat) (nm : String), names.get? i = some nm → nm ∉ avail →
        (ensureRegionSelectionsFn avail names).get? i =
          some (avail.getD (min i (avail.length - 1)) "")) ∧
      (names = [] → ensureRegionSelectionsFn avail names = [avail.getD 0 ""]) ∧
      ensureRegionSelectionsFn avail names ≠ [] ∧
      (∀ nm ∈ ensureRegionSelectionsFn avail names, nm ∈ avail)) ∧
    (∀ (p : List (String × DatasetV)) (s : LGState) (k : String) (ds : DatasetV),
      lookupDs p k = some ds → ds.regions.map Prod.fst ≠ [] →
      (lgStep p s (.changeDataset k)).1.datasetKey = k ∧
      (lgStep p s (.changeDataset k)).1.regionNames =
        ensureRegionSelectionsFn (ds.regions.map Prod.fst) s.regionNames) := by
  constructor
  · intro avail names hav
    refine ⟨?_, ?_, ?_, ensureRegionSelectionsFn_ne_nil avail names,
      fun nm h => ensureRegionSelectionsFn_mem avail names hav nm h⟩
    · intro i nm hget hmem
      have hne : names ≠ [] := by
        intro hnil; rw [hnil] at hget; simp at hget
      rw [ensureRegionSelectionsFn_of_ne_nil avail names hne, ensureAux_get? avail names 0 i,
        hget]
      simp [hmem]
    · intro i nm hget hmem
      have hne : names ≠ [] := by
        intro hnil; rw [hnil] at hget; simp at hget
      rw [ensureRegionSelectionsFn_of_ne_nil avail names hne, ensureAux_get? avail names 0 i,
        hget]
      simp [hmem]
    · intro hnil
      subst hnil
      rfl
  · intro p s k ds hlk hkeys
    have hkE : ((ds.regions.map Prod.fst).isEmpty) = false := by
      simpa [List.isEmpty_iff] using hkeys
    simp only [lgStep, lgChangeDataset, hlk, hkE, if_false, updateChartState]
    exact ⟨rfl, ensureRegionSelectionsFn_stable (ds.regions.map Prod.fst) s.regionNames hkeys⟩

/-- Witness for C8: switching from `["India", "Germany"]` to a dataset
with regions `["France", "Germany"]` keeps `"Germany"`, replaces `"India"`
positionally by `"France"`, and the change handler applies the
re-validation. -/
theorem dataset_switch_revalidation_witness :
    (ensureRegionSelectionsFn ["France", "Germany"] ["India", "Germany"]).get? 1 =
      some "Germany" ∧
    (ensureRegionSelectionsFn ["France", "Germany"] ["India", "Germany"]).get? 0 =
      some (["France", "Germany"].getD (min 0 (["France", "Germany"].length - 1)) "") ∧
    (lgStep [("g", ⟨["2020"], [("France", [some 1]), ("Germany", [some 2])]⟩)]
        ⟨"h", ["India", "Germany"], ["1"]⟩ (.changeDataset "g")).1.regionNames =
      ensureRegionSelectionsFn ["France", "Germany"] ["India", "Germany"] :=
  ⟨(dataset_switch_revalidation.1 ["France", "Germany"] ["India", "Germany"] (by decide)).1
      1 "Germany" rfl (by decide),
   (dataset_switch_revalidation.1 ["France", "Germany"] ["India", "Germany"] (by decide)).2.1
      0 "India" rfl (by decide),
   (dataset_switch_revalidation.2
      [("g", ⟨["2020"], [("France", [some 1]), ("Germany", [some 2])]⟩)]
      ⟨"h", ["India", "Germany"], ["1"]⟩ "g"
      ⟨["2020"], [("France", [some 1]), ("Germany", [some 2])]⟩ (by decide) (by decide)).2⟩

/-! ## Scatter controller lemmas (claim C9) -/

/-- Membership through sorted insertion. -/
theorem mem_insertStr (x : String) :
    ∀ (l : List String) (y : String), y ∈ insertStr x l ↔ y = x ∨ y ∈ l := by
  intro l
  induction l with
  | nil => intro y; simp [insertStr]
  | cons a t ih =>
    intro y
    rw [insertStr]
    by_cases h : x < a
    · simp [h]
    · simp only [h, if_false, List.mem_cons, ih y]
      tauto

/-- Sorting preserves membership. -/
theorem mem_sortStrs : ∀ (l : List String) (y : String), y ∈ sortStrs l ↔ y ∈ l := by
  intro l
  induction l with
  | nil => intro y; simp [sortStrs]
  | cons a t ih =>
    intro y
    rw [sortStrs, mem_insertStr]
    simp [ih y]

/-- Projections of a successful `ensureYearStateAvailable` run: the axis
keys are untouched and the selectable years are the recomputed
intersection. -/
theorem ensureYearState_ok (p : List (String × DatasetV)) (s s' : ScState)
    (h : ensureYearState p s = .ok s') :
    s'.xKey = s.xKey ∧ s'.yKey = s.yKey ∧
      s'.yearOptions = computeCommonYears p s.xKey s.yKey := by
  rw [ensureYearState] at h
  by_cases hE : (computeCommonYears p s.xKey s.yKey).isEmpty
  · rw [if_pos hE] at h; exact absurd h (by simp)
  · rw [if_neg hE] at h
    cases h
    exact ⟨rfl, rfl, rfl⟩

/-- C9: the selectable years are exactly the intersection of the X and Y
datasets' year labels, the selectable regions are exactly the intersection
of their region-name sets, and switching either axis key recomputes the
year options as the intersection under the new key pair. -/
theorem scatter_axis_intersections :
    (∀ (p : List (String × DatasetV)) (a b y : String),
      y ∈ computeCommonYears p a b ↔
        y ∈ (getDatasetP p a).years ∧ y ∈ (getDatasetP p b).years) ∧
    (∀ (p : List (String × DatasetV)) (a b r : String),
      r ∈ computeCommonRegions p a b ↔
        r ∈ (getDatasetP p a).regions.map Prod.fst ∧
          r ∈ (getDatasetP p b).regions.map Prod.fst) ∧
    (∀ (p : List (String × DatasetV)) (s : ScState) (k : String) (s' : ScState),
      onAxisChange p s true k = .ok s' →
        s'.xKey = k ∧ s'.yearOptions = computeCommonYears p k s.yKey) ∧
    (∀ (p : List (String × DatasetV)) (s : ScState) (k : String) (s' : ScState),
      onAxisChange p s false k = .ok s' →
        s'.yKey = k ∧ s'.yearOptions = computeCommonYears p s.xKey k) := by
  refine ⟨?_, ?_, ?_, ?_⟩
  · intro p a b y
    rw [computeCommonYears, List.mem_filter, decide_eq_true_iff]
  · intro p a b r
    rw [computeCommonRegions, mem_sortStrs, List.mem_filter, decide_eq_true_iff]
  · intro p s k s' h
    rw [onAxisChange] at h
    simp only [if_true] at h
    cases h1 : ensureYearState p { s with xKey := k } with
    | error e => rw [h1] at h; exact absurd h (by simp)
    | ok s1 =>
      rw [h1] at h
      dsimp only at h
      obtain ⟨hx1, hy1, ho1⟩ := ensureYearState_ok p _ s1 h1
      cases h2 : ensureYearState p s1 with
      | error e =>
        rw [h2] at h
        cases h
        exact ⟨hx1, ho1⟩
      | ok s2 =>
        rw [h2] at h
        obtain ⟨hx2, hy2, ho2⟩ := ensureYearState_ok p s1 s2 h2
        injection h with hh
        subst hh
        exact ⟨by rw [hx2, hx1], by rw [ho2, hx1, hy1]⟩
  · intro p s k s' h
    rw [onAxisChange] at h
    simp only [Bool.false_eq_true, if_false] at h
    cases h1 : ensureYearState p { s with yKey := k } with
    | error e => rw [h1] at h; exact absurd h (by simp)
    | ok s1 =>
      rw [h1] at h
      dsimp only at h
      obtain ⟨hx1, hy1, ho1⟩ := ensureYearState_ok p _ s1 h1
      cases h2 : ensureYearState p s1 with
      | error e =>
        rw [h2] at h
        cases h
        exact ⟨hy1, ho1⟩
      | ok s2 =>
        rw [h2] at h
        obtain ⟨hx2, hy2, ho2⟩ := ensureYearState_ok p s1 s2 h2
        injection h with hh
        subst hh
        exact ⟨by rw [hy2, hy1], by rw [ho2, hx1, hy1]⟩

/-- Witness for C9 at a concrete two-dataset payload sharing the year
`"2019"` and the region `"India"`. -/
theorem scatter_axis_intersections_witness :
    ("2019" ∈ computeCommonYears
        [("x", ⟨["2018", "2019"], [("India", [some 1, some 2])]⟩),
         ("y", ⟨["2019", "2020"], [("India", [some 3, some 4]), ("World", [some 5, some 6])]⟩)]
        "x" "y" ↔
      ("2019" ∈ (getDatasetP
          [("x", ⟨["2018", "2019"], [("India", [some 1, some 2])]⟩),
           ("y", ⟨["2019", "2020"], [("India", [some 3, some 4]), ("World", [some 5, some 6])]⟩)]
          "x").years ∧
        "2019" ∈ (getDatasetP
          [("x", ⟨["2018", "2019"], [("India", [some 1, some 2])]⟩),
           ("y", ⟨["2019", "2020"], [("India", [some 3, some 4]), ("World", [some 5, some 6])]⟩)]
          "y").years)) ∧
    ("India" ∈ computeCommonRegions
        [("x", ⟨["2018", "2019"], [("India", [some 1, some 2])]⟩),
         ("y", ⟨["2019", "2020"], [("India", [some 3, some 4]), ("World", [some 5, some 6])]⟩)]
        "x" "y" ↔
      ("India" ∈ ((getDatasetP
          [("x", ⟨["2018", "2019"], [("India", [some 1, some 2])]⟩),
           ("y", ⟨["2019", "2020"], [("India", [some 3, some 4]), ("World", [some 5, some 6])]⟩)]
          "x").regions.map Prod.fst) ∧
        "India" ∈ ((getDatasetP
          [("x", ⟨["2018", "2019"], [("India", [some 1, some 2])]⟩),
           ("y", ⟨["2019", "2020"], [("India", [some 3, some 4]), ("World", [some 5, some 6])]⟩)]
          "y").regions.map Prod.fst))) :=
  ⟨scatter_axis_intersections.1
      [("x", ⟨["2018", "2019"], [("India", [some 1, some 2])]⟩),
       ("y", ⟨["2019", "2020"], [("India", [some 3, some 4]), ("World", [some 5, some 6])]⟩)]
      "x" "y" "2019",
   scatter_axis_intersections.2.1
      [("x", ⟨["2018", "2019"], [("India", [some 1, some 2])]⟩),
       ("y", ⟨["2019", "2020"], [("India", [some 3, some 4]), ("World", [some 5, some 6])]⟩)]
      "x" "y" "India"⟩

/-! ## Decimal-digit lemmas (claim C10) -/

/-- A digit below ten renders as a digit character. -/
theorem isDigitCh_digitChar {d : Nat} (h : d < 10) : isDigitCh (digitChar d) = true := by
  interval_cases d <;> decide

/-- Rendering then reading a digit below ten is the identity. -/
theorem digitVal_digitChar {d : Nat} (h : d < 10) : digitVal (digitChar d) = d := by
  interval_cases d <;> decide

/-- A digit character is not tokenizer whitespace. -/
theorem isDigitCh_not_space {c : Char} (h : isDigitCh c = true) : isSpaceCh c = false := by
  rw [isSpaceCh]
  apply decide_eq_false
  intro hor
  rcases hor with h1 | h1 | h1 <;> (subst h1; exact absurd h (by decide))

/-- A digit character is not an operator/parenthesis character. -/
theorem isDigitCh_not_op {c : Char} (h : isDigitCh c = true) : isOpCh c = false := by
  rw [isOpCh]
  apply decide_eq_false
  intro hmem
  simp only [List.mem_cons, List.not_mem_nil, or_false] at hmem
  rcases hmem with h1 | h1 | h1 | h1 | h1 | h1 <;> (subst h1; exact absurd h (by decide))

/-- A digit character is a numeric-token character. -/
theorem isDigitCh_isNum {c : Char} (h : isDigitCh c = true) : isNumCh c = true := by
  rw [isNumCh, h, Bool.true_or]

/-- A digit character is not a dot and not a minus sign. -/
theorem isDigitCh_ne_dot_minus {c : Char} (h : isDigitCh c = true) : c ≠ '.' ∧ c ≠ '-' := by
  constructor <;> (intro h1; subst h1; exact absurd h (by decide))

/-- All characters produced by `natDigitsAux` are digits. -/
theorem natDigitsAux_digits :
    ∀ (fuel n : Nat), ∀ c ∈ natDigitsAux fuel n, isDigitCh c = true := by
  intro fuel
  induction fuel with
  | zero => intro n c hc; simp [natDigitsAux] at hc
  | succ f ih =>
    intro n c hc
    rw [natDigitsAux] at hc
    by_cases h0 : n = 0
    · simp [h0] at hc
    · rw [if_neg h0] at hc
      rcases List.mem_append.mp hc with h | h
      · exact ih (n / 10) c h
      · simp only [List.mem_singleton] at h
        subst h
        exact isDigitCh_digitChar (Nat.mod_lt n (by omega))

/-- `natDigitsAux` is non-empty for a positive number and positive fuel. -/
theorem natDigitsAux_ne_nil (fuel n : Nat) (hn : 0 < n) (hf : 0 < fuel) :
    natDigitsAux fuel n ≠ [] := by
  cases fuel with
  | zero => omega
  | succ f =>
    rw [natDigitsAux, if_neg (by omega)]
    simp

/-- Reading one appended digit. -/
theorem digitsVal_append_digit (l : List Char) (c : Char) :
    digitsVal (l ++ [c]) = 10 * digitsVal l + digitVal c := by
  rw [digitsVal, digitsVal, List.foldl_append]
  rfl

/-- `natDigitsAux` renders the decimal expansion: reading it back gives the
number, for sufficient fuel. -/
theorem digitsVal_natDigitsAux :
    ∀ (fuel n : Nat), n ≤ fuel → digitsVal (natDigitsAux fuel n) = n := by
  intro fuel
  induction fuel with
  | zero =>
    intro n h
    interval_cases n
    rfl
  | succ f ih =>
    intro n h
    rw [natDigitsAux]
    by_cases h0 : n = 0
    · simp [h0, digitsVal]
    · have hdiv : n / 10 < n := Nat.div_lt_self (by omega) (by omega)
      rw [if_neg h0, digitsVal_append_digit, ih (n / 10) (by omega),
        digitVal_digitChar (Nat.mod_lt n (by omega))]
      omega

/-- The decimal rendering of a natural number is a non-empty string of
digit characters. -/
theorem natToDec_data_digits (n : Nat) :
    (natToDec n).data ≠ [] ∧ ∀ c ∈ (natToDec n).data, isDigitCh c = true := by
  rw [natToDec]
  by_cases h0 : n = 0
  · subst h0
    refine ⟨by decide, ?_⟩
    intro c hc
    simp only [if_pos rfl] at hc
    have : c = '0' := by simpa using hc
    subst this
    decide
  · rw [if_neg h0]
    exact ⟨natDigitsAux_ne_nil n n (by omega) (by omega), natDigitsAux_digits n n⟩

/-- Reading back the decimal rendering gives the number. -/
theorem digitsVal_natToDec (n : Nat) : digitsVal (natToDec n).data = n := by
  rw [natToDec]
  by_cases h0 : n = 0
  · subst h0; decide
  · rw [if_neg h0]
    exact digitsVal_natDigitsAux n n le_rfl

/-- `takeWhile`/`dropWhile` on a list every element of which satisfies the
predicate. -/
theorem takeWhile_dropWhile_all {p : Char → Bool} :
    ∀ (l : List Char), (∀ c ∈ l, p c = true) → l.takeWhile p = l ∧ l.dropWhile p = [] := by
  intro l
  induction l with
  | nil => intro _; exact ⟨rfl, rfl⟩
  | cons a t ih =>
    intro hall
    have ha := hall a (by simp)
    have ht := ih (fun c hc => hall c (by simp [hc]))
    constructor
    · rw [List.takeWhile_cons, ha]
      simp [ht.1]
    · rw [List.dropWhile_cons, ha]
      simp [ht.2]

/-- `takeNum` consumes an all-numeric list entirely. -/
theorem takeNum_all :
    ∀ (l : List Char), (∀ c ∈ l, isNumCh c = true) → takeNum l = (l, []) := by
  intro l
  induction l with
  | nil => intro _; rfl
  | cons a t ih =>
    intro hall
    rw [takeNum, if_pos (hall a (by simp)), ih (fun c hc => hall c (by simp [hc]))]

/-- `Number` on a non-empty all-digit token is its digit value. -/
theorem numParse_digits (ds : List Char) (hne : ds ≠ [])
    (hall : ∀ c ∈ ds, isDigitCh c = true) :
    numParse ds = some ((digitsVal ds : ℚ)) := by
  obtain ⟨htk, hdr⟩ := takeWhile_dropWhile_all ds hall
  rw [numParse]
  simp only [htk, hdr]
  rw [if_neg (by simpa [List.isEmpty_iff] using hne)]

/-- `jsNumber` on a non-empty all-digit string is its digit value. -/
theorem jsNumber_digits (s : String) (hne : s.data ≠ [])
    (hall : ∀ c ∈ s.data, isDigitCh c = true) :
    jsNumber s = some ((digitsVal s.data : ℚ)) := by
  rw [jsNumber, if_neg, numParse_digits s.data hne hall]
  intro hh
  cases hd : s.data with
  | nil => exact absurd hd hne
  | cons c cs =>
    rw [hd] at hh
    simp only [List.head?_cons, Option.some.injEq] at hh
    exact (isDigitCh_ne_dot_minus (hall c (by rw [hd]; simp))).2 hh

/-- The tokenizer loop turns an all-digit input into a single token. -/
theorem tokLoop_digits (c : Char) (cs : List Char) (hc : isDigitCh c = true)
    (hcs : ∀ x ∈ cs, isNumCh x = true) (fuel : Nat) :
    tokLoop (fuel + 1) (c :: cs) = .ok [String.mk (c :: cs)] := by
  rw [tokLoop]
  simp only [isDigitCh_not_space hc, isDigitCh_not_op hc, isDigitCh_isNum hc,
    Bool.false_eq_true, if_false, if_true, takeNum_all cs hcs]
  cases fuel <;> rfl

/-- The tokenizer turns a non-empty all-digit string into a single token. -/
theorem tokenize_digits (s : String) (hne : s.data ≠ [])
    (hall : ∀ c ∈ s.data, isDigitCh c = true) :
    tokenize s = .ok [s] := by
  rw [tokenize]
  cases hd : s.data with
  | nil => exact absurd hd hne
  | cons c cs =>
    have hc := hall c (by rw [hd]; simp)
    have hcs : ∀ x ∈ cs, isNumCh x = true := by
      intro x hx
      exact isDigitCh_isNum (hall x (by rw [hd]; simp [hx]))
    rw [List.length_cons, tokLoop_digits c cs hc hcs (cs.length + 1), ← hd]

/-- A non-empty all-digit string is none of the parser's special tokens. -/
theorem digit_str_ne_special (s : String) (hne : s.data ≠ [])
    (hall : ∀ c ∈ s.data, isDigitCh c = true) :
    s ≠ "(" ∧ s ≠ ")" ∧ s ≠ "+" ∧ s ≠ "-" ∧ s ≠ "*" ∧ s ≠ "/" := by
  refine ⟨?_, ?_, ?_, ?_, ?_, ?_⟩
  · intro heq; subst heq; exact absurd (hall '(' (by decide)) (by decide)
  · intro heq; subst heq; exact absurd (hall ')' (by decide)) (by decide)
  · intro heq; subst heq; exact absurd (hall '+' (by decide)) (by decide)
  · intro heq; subst heq; exact absurd (hall '-' (by decide)) (by decide)
  · intro heq; subst heq; exact absurd (hall '*' (by decide)) (by decide)
  · intro heq; subst heq; exact absurd (hall '/' (by decide)) (by decide)

/-- A string of digits contains no dot. -/
theorem digit_str_no_dot (s : String) (hall : ∀ c ∈ s.data, isDigitCh c = true) :
    hasDot s = false := by
  rw [hasDot]
  apply decide_eq_false
  intro hmem
  exact absurd (hall '.' hmem) (by decide)

/-- The shunting-yard parse of a single integer token in `[1, regionCount]`
is a single 0-based series reference. -/
theorem shuntingYard_single_nat (k rc : Nat) (hk : 1 ≤ k) (hrc : k ≤ rc) :
    shuntingYard [natToDec k] rc = .ok [.region (k - 1)] := by
  obtain ⟨hne, hall⟩ := natToDec_data_digits k
  obtain ⟨h1, h2, h3, h4, h5, h6⟩ := digit_str_ne_special (natToDec k) hne hall
  have hnum : jsNumber (natToDec k) = some ((k : ℚ)) := by
    rw [jsNumber_digits _ hne hall, digitsVal_natToDec]
  rw [shuntingYard]
  rw [syLoop]
  rw [if_neg h1, if_neg h2, if_neg (by tauto), hnum]
  dsimp only
  rw [if_pos ⟨by simp [digit_str_no_dot _ hall], by exact_mod_cast hk, by exact_mod_cast hrc⟩]
  have hidx : ((k : ℚ)).num.toNat - 1 = k - 1 := by
    rw [Rat.num_natCast]
    simp
  rw [hidx, syLoop]
  simp

/-- C10: an integer-valued literal `k` with `1 ≤ k ≤ |series_order|` is
rendered by `to_placeholder_expression` as the bare decimal digits of `k`
with no decimal point; consequently the runtime parser classifies the token
as a 1-based series reference (not a numeric literal) whenever `k` does not
exceed the number of currently selected series, and evaluation returns the
`k`-th selected series' value array instead of the constant. -/
theorem integer_literal_reparses_as_series_ref :
    ∀ (k : Nat) (order : List String), 1 ≤ k → k ≤ order.length →
      (toPlaceholderExpression (Expr.lit (k : ℚ)) order = some (natToDec k) ∧
        hasDot (natToDec k) = false) ∧
      (∀ (rs : List RSeries), k ≤ rs.length →
        shuntingYard [natToDec k] rs.length = .ok [.region (k - 1)]) ∧
      (∀ (rs : List RSeries) (n : Nat) (sv : RSeries), k ≤ rs.length →
        rs.get? (k - 1) = some sv →
        evaluateExpression (natToDec k) rs n = .ok sv.values) := by
  intro k order hk _
  obtain ⟨hne, hall⟩ := natToDec_data_digits k
  refine ⟨⟨?_, digit_str_no_dot _ hall⟩, ?_, ?_⟩
  · rw [toPlaceholderExpression, toPlaceholderAux, litRepr,
      if_pos (by rw [Rat.den_natCast]), Rat.num_natCast, intToDec,
      if_neg (by exact_mod_cast Nat.not_lt.mpr (Nat.zero_le k))]
    simp
  · intro rs hrs
    exact shuntingYard_single_nat k rs.length hk hrs
  · intro rs n sv hrs hget
    rw [evaluateExpression, tokenize_digits _ hne hall]
    dsimp only
    rw [shuntingYard_single_nat k rs.length hk hrs]
    dsimp only
    rw [evalRpn, evalStep]
    rw [hget]
    dsimp only
    rw [evalRpn]
    rfl

/-- Witness for C10 at `k = 2` with two selected series. -/
theorem integer_literal_reparses_as_series_ref_witness :
    toPlaceholderExpression (Expr.lit ((2 : Nat) : ℚ)) ["x", "y"] = some (natToDec 2) ∧
    shuntingYard [natToDec 2] 2 = .ok [.region 1] ∧
    evaluateExpression (natToDec 2) [⟨"x", [some 1]⟩, ⟨"y", [some 7]⟩] 1 =
      .ok (⟨"y", [some 7]⟩ : RSeries).values :=
  ⟨(integer_literal_reparses_as_series_ref 2 ["x", "y"] (by omega) (by decide)).1.1,
   (integer_literal_reparses_as_series_ref 2 ["x", "y"] (by omega) (by decide)).2.1
     [⟨"x", [some 1]⟩, ⟨"y", [some 7]⟩] (by decide),
   (integer_literal_reparses_as_series_ref 2 ["x", "y"] (by omega) (by decide)).2.2
     [⟨"x", [some 1]⟩, ⟨"y", [some 7]⟩] 1 ⟨"y", [some 7]⟩ (by decide) (by decide)⟩

end Karana




